import Mathlib

/-!
Verification of the anyrun 1password plugin core (src/src/lib.rs).

The Rust source is shallowly embedded below.  External collaborators are
parameters of the embedding:
  * the fuzzy matcher (`fuzzy_matcher::skim::SkimMatcherV2::fuzzy_match`)
    is a parameter `fm : String → String → Option Int` (text, pattern);
  * external command execution (`execute_command`) is a parameter
    `o : Nat → Except Error String` giving the outcome of the i-th
    invocation made by the function under consideration, and every
    function that may invoke commands also returns the list of `Cmd`
    invocations it performed, in order;
  * JSON decoding (`serde_json::from_str`) is a parameter returning an
    `Option` of the decoded value (`none` = decode failure);
  * URL parsing (`url::Url::parse`) is a parameter
    `parse : String → Option Url`.
Rust `unwrap()` panics are modelled by the `HandlerOut.aborted` outcome,
which carries no `HandleResult` and no successor `State`.
-/

set_option maxHeartbeats 1000000

namespace AnyrunOp

/-- Configuration (struct `Config`).  The source field named after the query
marker keyword is called `pfx` here because its Rust name is a Lean keyword. -/
structure Config where
  max_entries : Nat
  op_path : String
  pfx : String
  deriving DecidableEq

/-- Defaults from `max_entries() = 10`, `op_path() = "op"`, and the empty
default query marker (`impl Default for Config`). -/
def Config.default : Config := { max_entries := 10, op_path := "op", pfx := "" }

/-- Parsed `href` of one stored URL (struct `OpUrl`): the field holds the
result of the `host_from_url` deserializer, an optional domain string. -/
structure OpUrl where
  href : Option String
  deriving DecidableEq

/-- One catalog entry (struct `OpListItem`). -/
structure OpListItem where
  id : String
  title : String
  category : String
  urls : List OpUrl
  deriving DecidableEq

/-- One field of a detail record (struct `OpField`; `tpe` is the JSON
field `type`). -/
structure OpField where
  id : String
  tpe : String
  value : Option String
  deriving DecidableEq

/-- A detail record (struct `OpGetItem`). -/
structure OpGetItem where
  fields : List OpField
  deriving DecidableEq

/-- The result of `url::Url::parse` as far as this plugin observes it:
only `host_str()` is consulted. -/
structure Url where
  host_str : Option String
  deriving DecidableEq

/-- `fn host_from_url`: on a successful parse, the optional host of the
parsed URL; on a parse error, the raw string verbatim. -/
def host_from_url (parse : String → Option Url) (s : String) : Option String :=
  match parse s with
  | some u => u.host_str
  | none => some s

/-- Error kinds (enum `Error`); payloads irrelevant to control flow are
dropped. -/
inductive Error where
  | OpCommandFailed
  | OpReturnCodeError (code : Int)
  | ReadOutputError
  | ParsingError
  deriving DecidableEq

/-- The extracted selection (struct `Selection`). -/
structure Selection where
  id : String
  username : Option String
  password : Option String
  has_otp : Bool
  ccnum : Option String
  cvv : Option String
  expiry : Option String
  deriving DecidableEq

/-- Plugin state (struct `State`). -/
structure State where
  config : Config
  items : List (Nat × OpListItem)
  input : Option String
  selection : Option Selection
  deriving DecidableEq

/-- An anyrun result row (struct `Match` of `anyrun_plugin`). -/
structure Match where
  title : String
  icon : Option String
  use_pango : Bool
  description : Option String
  id : Option Nat
  deriving DecidableEq

/-- Result of a pick (enum `HandleResult`); the `Copy` payload is the
string whose bytes the source copies. -/
inductive HandleResult where
  | Copy (payload : String)
  | Refresh (b : Bool)
  | Close
  deriving DecidableEq

/-- One external command invocation (program and argument vector). -/
structure Cmd where
  path : String
  args : List String
  deriving DecidableEq

/-- `const ITEM_LIST_ARGS`. -/
def ITEM_LIST_ARGS : List String := ["item", "list", "--format=json"]

/-- The catalog listing invocation for a given configuration. -/
def listCmd (cfg : Config) : Cmd := ⟨cfg.op_path, ITEM_LIST_ARGS⟩

/-- The listing content computed at the start of `fn init`: one call of
`execute_command`, re-invoked identically exactly once when the first
attempt ends in `OpReturnCodeError`.  Also returns the invocation trace. -/
def listing_content (cfg : Config) (o : Nat → Except Error String) :
    Except Error String × List Cmd :=
  match o 0 with
  | .error (.OpReturnCodeError _) => (o 1, [listCmd cfg, listCmd cfg])
  | other => (other, [listCmd cfg])

/-- The category filter of `fn init`. -/
def supported_category (i : OpListItem) : Bool :=
  i.category == "PASSWORD" || i.category == "LOGIN" || i.category == "CREDIT_CARD"

/-- `fn init`: decode the listing, filter to supported categories,
enumerate to assign dense handles, and build the initial state.
`dec` stands for `serde_json::from_str::<Vec<OpListItem>>`.  The Rust
function `unwrap`s the result (panicking on error); the embedding returns
the `Except` value before that `unwrap`, together with the trace. -/
def init (cfg : Config) (o : Nat → Except Error String)
    (dec : String → Option (List OpListItem)) : Except Error State × List Cmd :=
  let (content, trace) := listing_content cfg o
  let res : Except Error State :=
    match content with
    | .error e => .error e
    | .ok s =>
      match dec s with
      | none => .error .ParsingError
      | some items =>
        .ok { config := cfg
              items := (items.filter supported_category).enum
              input := none
              selection := none }
  (res, trace)

/-- The score of one item against the cleaned input, from the body of
`display_matching_items`: the maximum of the title score and the maximum
domain score, each missing fuzzy result defaulting to `0` via
`unwrap_or(0)`. -/
def item_score (fm : String → String → Option Int) (pattern : String)
    (e : OpListItem) : Int :=
  let title_score := (fm e.title pattern).getD 0
  let domain_score :=
    (((e.urls.filterMap OpUrl.href).map (fun d => (fm d pattern).getD 0)).max?).getD 0
  max title_score domain_score

/-- The `filter_map` of `display_matching_items`: items with positive
score, paired with their handle and score. -/
def matching_entries (fm : String → String → Option Int) (pattern : String)
    (items : List (Nat × OpListItem)) : List (Nat × OpListItem × Int) :=
  items.filterMap (fun p =>
    let score := item_score fm pattern p.2
    if 0 < score then some (p.1, p.2, score) else none)

/-- Stable insertion step for the descending sort by score: the new
element, which came later in enumeration order, moves ahead only of
strictly smaller scores. -/
def insert_entry (x : Nat × OpListItem × Int) :
    List (Nat × OpListItem × Int) → List (Nat × OpListItem × Int)
  | [] => [x]
  | y :: ys => if y.2.2 < x.2.2 then x :: y :: ys else y :: insert_entry x ys

/-- The stable descending sort by score performed by
`entries.sort_by(|a, b| b.2.cmp(&a.2))` (Rust `sort_by` is stable). -/
def sort_entries (l : List (Nat × OpListItem × Int)) :
    List (Nat × OpListItem × Int) :=
  l.foldl (fun acc x => insert_entry x acc) []

/-- Executable character-level embedding of `str::starts_with`, used by
the marker check of `display_matching_items`. -/
def starts_with (s p : String) : Bool := s.data.take p.data.length == p.data

/-- Conversion of a surviving entry to a result row (tail of
`display_matching_items`). -/
def entry_to_match (t : Nat × OpListItem × Int) : Match :=
  { title := t.2.1.title, icon := none, use_pango := false
    description := none, id := some t.1 }

/-- `fn display_matching_items`: marker check, cleaning, scoring,
stable descending sort, truncation, and recording of the input. -/
def display_matching_items (fm : String → String → Option Int)
    (input : String) (st : State) : List Match × State :=
  if starts_with input st.config.pfx then
    let cleaned := input.drop st.config.pfx.length
    let entries :=
      (sort_entries (matching_entries fm cleaned st.items)).take st.config.max_entries
    (entries.map entry_to_match, { st with input := some input })
  else
    ([], st)

/-- A field-pick result row with a fixed handle. -/
def slot (title : String) (n : Nat) : Match :=
  { title := title, icon := none, use_pango := false, description := none
    id := some n }

/-- `fn display_selection_items`: the six optional rows, flattened in
fixed order with fixed handles 0..5. -/
def display_selection_items (s : Selection) : List Match :=
  ([ s.username.map (fun _ => slot "Username" 0)
   , s.password.map (fun _ => slot "Password" 1)
   , if s.has_otp then some (slot "One-time password" 2) else none
   , s.ccnum.map (fun _ => slot "Number" 3)
   , s.cvv.map (fun _ => slot "CCV" 4)
   , s.expiry.map (fun _ => slot "Expiry" 5)
   ]).filterMap id

/-- `fn get_matches`.  The source makes no `execute_command` call in any
branch, so the invocation trace component is always empty. -/
def get_matches (fm : String → String → Option Int) (input : String)
    (st : State) : (List Match × State) × List Cmd :=
  match st.selection with
  | none => (display_matching_items fm input st, [])
  | some sel =>
    match st.input with
    | none => (display_matching_items fm input st, [])
    | some s =>
      if input = s then
        ((display_selection_items sel, st), [])
      else
        (display_matching_items fm input { st with selection := none, input := none }, [])

/-- The six repeated `find_map` extractions of `fn handler`, abstracted
over the key: the first `Some` value among entries whose `id` equals the
key (`find_map` skips matching entries whose `value` is `None`). -/
def field_value (key : String) (fields : List OpField) : Option String :=
  fields.findSome? (fun f => if f.id = key then f.value else none)

/-- The `Selection` built in the searching branch of `fn handler`. -/
def extract_selection (i : String) (it : OpGetItem) : Selection :=
  { id := i
    username := field_value "username" it.fields
    password := field_value "password" it.fields
    has_otp := it.fields.any (fun f => f.tpe == "OTP")
    ccnum := field_value "ccnum" it.fields
    cvv := field_value "cvv" it.fields
    expiry := field_value "expiry" it.fields }

/-- The handle resolution at the head of `fn handler`: the external id of
the indexed item whose handle equals the picked row's id.  A missing row
id or an unknown handle makes the Rust code panic on `unwrap`;
both surface as `none` here. -/
def resolve_id (st : State) (m : Match) : Option String :=
  m.id.bind (fun mid =>
    st.items.findSome? (fun p => if p.1 = mid then some p.2.id else none))

/-- Outcome of `fn handler`: a normal result with the successor state, or
an aborted action (a Rust `unwrap` panic), optionally carrying the
`Error` that was unwrapped. -/
inductive HandlerOut where
  | ok (r : HandleResult) (st : State)
  | aborted (e : Option Error)
  deriving DecidableEq

/-- `fn handler`, with the external executor `o` and the detail-record
decoder `d` (`serde_json::from_str::<OpGetItem>`) as parameters, returning
the outcome and the invocation trace. -/
def handler (m : Match) (st : State) (o : Nat → Except Error String)
    (d : String → Option OpGetItem) : HandlerOut × List Cmd :=
  match st.selection with
  | none =>
    match resolve_id st m with
    | none => (.aborted none, [])
    | some i =>
      let cmd : Cmd := ⟨st.config.op_path, ["items", "get", i, "--format=json"]⟩
      match o 0 with
      | .error e => (.aborted (some e), [cmd])
      | .ok out =>
        match d out with
        | none => (.aborted (some .ParsingError), [cmd])
        | some it =>
          (.ok (.Refresh true) { st with selection := some (extract_selection i it) }, [cmd])
  | some s =>
    match m.id with
    | some 0 =>
      match s.username with
      | some v => (.ok (.Copy v) st, [])
      | none => (.aborted none, [])
    | some 1 =>
      match s.password with
      | some v => (.ok (.Copy v) st, [])
      | none => (.aborted none, [])
    | some 2 =>
      let cmd : Cmd := ⟨st.config.op_path, ["items", "get", s.id, "--otp"]⟩
      match o 0 with
      | .error e => (.aborted (some e), [cmd])
      | .ok otp => (.ok (.Copy otp.trim) st, [cmd])
    | some 3 =>
      match s.ccnum with
      | some v => (.ok (.Copy v) st, [])
      | none => (.aborted none, [])
    | some 4 =>
      match s.cvv with
      | some v => (.ok (.Copy v) st, [])
      | none => (.aborted none, [])
    | some 5 =>
      match s.expiry with
      | some v => (.ok (.Copy v) st, [])
      | none => (.aborted none, [])
    | _ => (.ok .Close st, [])

/-! Spec-side definitions, written from the claims' wording, to be
compared with the code-side definitions above. -/

/-- Modelled from the spec wording of §4.4 (claim C9): the value of the
first entry whose field identifier equals the key, whether or not that
entry carries a value. -/
def spec_field_value (key : String) (fields : List OpField) : Option String :=
  (fields.find? (fun f => f.id == key)).bind OpField.value

/-- The amended reading of §4.4: the value of the first entry whose
identifier equals the key AND whose value is present. -/
def amended_field_value (key : String) (fields : List OpField) : Option String :=
  (fields.find? (fun f => f.id == key && f.value.isSome)).bind OpField.value

/-- A detail record contains a present, non-empty value under the key. -/
def has_non_empty (key : String) (it : OpGetItem) : Bool :=
  it.fields.any (fun f => f.id == key && f.value.getD "" != "")

/-- Modelled from the spec wording of claim C3: username/password slots
iff non-empty values, OTP slot iff a field of type "OTP", card slots iff
the item is a credit-card item carrying non-empty values. -/
def spec_offered (category : String) (it : OpGetItem) : List Match :=
  (if has_non_empty "username" it then [slot "Username" 0] else []) ++
  (if has_non_empty "password" it then [slot "Password" 1] else []) ++
  (if it.fields.any (fun f => f.tpe == "OTP") then [slot "One-time password" 2] else []) ++
  (if category == "CREDIT_CARD" && has_non_empty "ccnum" it then [slot "Number" 3] else []) ++
  (if category == "CREDIT_CARD" && has_non_empty "cvv" it then [slot "CCV" 4] else []) ++
  (if category == "CREDIT_CARD" && has_non_empty "expiry" it then [slot "Expiry" 5] else [])

/-- The amended reading of claim C3: slots appear iff the corresponding
field value is present in the detail record (empty strings allowed, the
item's category never consulted); OTP slot iff a field of type "OTP". -/
def amended_offered (it : OpGetItem) : List Match :=
  (if (field_value "username" it.fields).isSome then [slot "Username" 0] else []) ++
  (if (field_value "password" it.fields).isSome then [slot "Password" 1] else []) ++
  (if it.fields.any (fun f => f.tpe == "OTP") then [slot "One-time password" 2] else []) ++
  (if (field_value "ccnum" it.fields).isSome then [slot "Number" 3] else []) ++
  (if (field_value "cvv" it.fields).isSome then [slot "CCV" 4] else []) ++
  (if (field_value "expiry" it.fields).isSome then [slot "Expiry" 5] else [])

/-- Modelled from the spec wording of claim C8: the item's score as the
plain maximum of the title score and the domain scores, with no floor at
zero when the domain list is empty. -/
def spec_item_score (fm : String → String → Option Int) (pattern : String)
    (e : OpListItem) : Int :=
  ((e.urls.filterMap OpUrl.href).map (fun d => (fm d pattern).getD 0)).foldl max
    ((fm e.title pattern).getD 0)

/-! Concrete fixtures used by witnesses and counterexamples. -/

/-- A concrete fuzzy matcher for witnesses. -/
def fm0 : String → String → Option Int := fun _ _ => some 1

/-- A concrete catalog item. -/
def item0 : OpListItem := ⟨"XID", "GitHub", "LOGIN", [⟨some "github.com"⟩]⟩

/-- A concrete selection. -/
def sel0 : Selection := ⟨"XID", some "alice", some "pw", true, none, none, none⟩

/-- A concrete state holding an active selection triggered by "git". -/
def st0 : State := ⟨Config.default, [(0, item0)], some "git", some sel0⟩

/-- A concrete state with no active selection (searching stage). -/
def st1 : State := ⟨Config.default, [(0, item0)], none, none⟩

/-- A concrete URL parser whose result has no host. -/
def parse0 : String → Option Url := fun _ => some ⟨none⟩

/-- Detail record for the C9 counterexample: a valueless entry under the
key precedes a valued one. -/
def rec9 : OpGetItem := ⟨[⟨"username", "STRING", none⟩, ⟨"username", "STRING", some "bob"⟩]⟩

/-- Detail record for the C3 counterexample: an empty username value and
a card number in a non-credit-card item. -/
def rec3 : OpGetItem :=
  ⟨[⟨"username", "STRING", some ""⟩, ⟨"ccnum", "STRING", some "4111111111111111"⟩]⟩

/-- A concrete executor that always exits non-zero. -/
def oracleFail : Nat → Except Error String := fun _ => .error (.OpReturnCodeError 3)

/-- A concrete catalog decoder that always fails. -/
def dec0 : String → Option (List OpListItem) := fun _ => none

/-- A concrete detail-record decoder that always fails. -/
def dget0 : String → Option OpGetItem := fun _ => none

/-- A concrete picked row carrying handle 0. -/
def m0 : Match := ⟨"GitHub", none, false, none, some 0⟩

/-! Theorems. -/

/-- `display_matching_items` never touches the selection component. -/
theorem display_matching_selection (fm : String → String → Option Int)
    (input : String) (st : State) :
    ((display_matching_items fm input st).2).selection = st.selection := by
  unfold display_matching_items
  split <;> rfl

/-- Claim C1: while an active selection is held and the incoming query
differs from the recorded last query, `get_matches` discards the
selection, reverts to searching, and re-evaluates the new query against
the index via `display_matching_items` (and makes no external call). -/
theorem C1_fieldpicking_revert (fm : String → String → Option Int)
    (input : String) (st : State) (sel : Selection) (s : String)
    (h1 : st.selection = some sel) (h2 : st.input = some s) (h3 : input ≠ s) :
    get_matches fm input st =
      (display_matching_items fm input { st with selection := none, input := none }, [])
    ∧ ((get_matches fm input st).1.2).selection = none := by
  constructor
  · unfold get_matches
    rw [h1, h2]
    simp [h3]
  · unfold get_matches
    rw [h1, h2]
    simp [h3, display_matching_selection]

/-- Witness for C1 at a concrete state and query. -/
theorem C1_witness :
    get_matches fm0 "x" st0 =
      (display_matching_items fm0 "x" { st0 with selection := none, input := none }, [])
    ∧ ((get_matches fm0 "x" st0).1.2).selection = none :=
  C1_fieldpicking_revert fm0 "x" st0 sel0 "git" rfl rfl (by decide)

/-- Claim C2: while an active selection is held and the incoming query
equals the recorded last query, `get_matches` re-emits the fixed field
list for the held selection, returns the state unchanged, and performs no
external command invocation (empty trace). -/
theorem C2_idempotent_redisplay (fm : String → String → Option Int)
    (input : String) (st : State) (sel : Selection) (s : String)
    (h1 : st.selection = some sel) (h2 : st.input = some s) (h3 : input = s) :
    get_matches fm input st = ((display_selection_items sel, st), []) := by
  unfold get_matches
  rw [h1, h2]
  simp [h3]

/-- Witness for C2 at a concrete state and the triggering query. -/
theorem C2_witness :
    get_matches fm0 "git" st0 = ((display_selection_items sel0, st0), []) :=
  C2_idempotent_redisplay fm0 "git" st0 sel0 "git" rfl rfl rfl

/-- Claim C3 counterexample: for the detail record of a LOGIN item holding
an empty username value and a ccnum value, the slots the code offers
differ from the claimed ones — the code offers the username slot despite
the empty value and the card-number slot despite the category. -/
theorem C3_counterexample :
    display_selection_items (extract_selection "i" rec3) ≠ spec_offered "LOGIN" rec3 := by
  decide

/-- `field_value` agrees with the amended first-present-value reading. -/
theorem field_value_eq_amended (key : String) (fields : List OpField) :
    field_value key fields = amended_field_value key fields := by
  induction fields with
  | nil => rfl
  | cons f fs ih =>
    simp only [field_value, amended_field_value, List.findSome?_cons, List.find?_cons] at ih ⊢
    by_cases hid : f.id = key
    · cases hv : f.value with
      | none => simp [hid, hv, ih]
      | some v => simp [hid, hv]
    · have hb : (f.id == key) = false := by simp [hid]
      simp [hid, hb, ih]

/-- Claim C3 (amended): a slot is offered iff the corresponding extracted
value is present in the detail record — username, password, card number,
CVV and expiry by presence of the first valued entry under their key,
irrespective of the item's category and counting empty strings as
present — the OTP slot iff some field's type is "OTP", with the fixed
handles 0..5 in exactly that display order. -/
theorem C3_amended_slots (i : String) (it : OpGetItem) :
    display_selection_items (extract_selection i it) = amended_offered it := by
  cases h1 : field_value "username" it.fields <;>
  cases h2 : field_value "password" it.fields <;>
  cases h3 : it.fields.any (fun f => f.tpe == "OTP") <;>
  cases h4 : field_value "ccnum" it.fields <;>
  cases h5 : field_value "cvv" it.fields <;>
  cases h6 : field_value "expiry" it.fields <;>
  simp [display_selection_items, extract_selection, amended_offered,
    h1, h2, h3, h4, h5, h6]

/-- Claim C9 counterexample: on a record whose first entry under the key
"username" carries no value, the extractor does not take the first
matching entry's (absent) value but skips ahead to a later valued one. -/
theorem C9_counterexample :
    (extract_selection "i" rec9).username ≠ spec_field_value "username" rec9.fields := by
  decide

/-- Claim C9 (amended): for each semantic field the extractor takes the
value of the first record entry whose identifier equals the known key and
whose value is present; absence of such an entry yields an omitted slot,
never an error; OTP availability holds iff some entry's field type equals
"OTP", independent of that entry's value. -/
theorem C9_amended_extractor (i : String) (it : OpGetItem) :
    (extract_selection i it).username = amended_field_value "username" it.fields
    ∧ (extract_selection i it).password = amended_field_value "password" it.fields
    ∧ (extract_selection i it).ccnum = amended_field_value "ccnum" it.fields
    ∧ (extract_selection i it).cvv = amended_field_value "cvv" it.fields
    ∧ (extract_selection i it).expiry = amended_field_value "expiry" it.fields
    ∧ ((extract_selection i it).has_otp = true ↔ ∃ f ∈ it.fields, f.tpe = "OTP") := by
  refine ⟨field_value_eq_amended _ _, field_value_eq_amended _ _,
    field_value_eq_amended _ _, field_value_eq_amended _ _,
    field_value_eq_amended _ _, ?_⟩
  simp [extract_selection, List.any_eq_true]

/-- Claim C10: a stored URL string that parses as a well-formed URL with
no host component yields no domain string (`href` is dropped to `none`),
and such an entry never changes the item's fuzzy score. -/
theorem C10_hostless_url_dropped (parse : String → Option Url) (s : String)
    (u : Url) (h1 : parse s = some u) (h2 : u.host_str = none)
    (fm : String → String → Option Int) (q : String) (e : OpListItem)
    (pre post : List OpUrl) :
    host_from_url parse s = none
    ∧ item_score fm q { e with urls := pre ++ ⟨host_from_url parse s⟩ :: post }
        = item_score fm q { e with urls := pre ++ post } := by
  have hh : host_from_url parse s = none := by
    simp [host_from_url, h1, h2]
  refine ⟨hh, ?_⟩
  simp [item_score, hh, List.filterMap_append, List.filterMap_cons]

/-- Witness for C10 at a concrete parser and URL string. -/
theorem C10_witness :
    host_from_url parse0 "mailto:alice" = none
    ∧ item_score fm0 "q" { item0 with urls := [⟨host_from_url parse0 "mailto:alice"⟩] }
        = item_score fm0 "q" { item0 with urls := [] } :=
  C10_hostless_url_dropped parse0 "mailto:alice" ⟨none⟩ rfl rfl fm0 "q" item0 [] []

/-! Properties of the stable descending sort. -/

/-- `insert_entry` produces a permutation of consing. -/
theorem insert_entry_perm (x : Nat × OpListItem × Int)
    (l : List (Nat × OpListItem × Int)) :
    List.Perm (insert_entry x l) (x :: l) := by
  induction l with
  | nil => exact List.Perm.refl _
  | cons y ys ih =>
    unfold insert_entry
    split
    · exact List.Perm.refl _
    · exact (ih.cons y).trans (List.Perm.swap x y ys)

/-- The insertion fold produces a permutation of the two lists appended. -/
theorem sort_entries_perm_aux :
    ∀ (l acc : List (Nat × OpListItem × Int)),
      List.Perm (List.foldl (fun acc x => insert_entry x acc) acc l) (acc ++ l) := by
  intro l
  induction l with
  | nil => intro acc; simp
  | cons x xs ih =>
    intro acc
    have h1 := ih (insert_entry x acc)
    have h2 : List.Perm (insert_entry x acc ++ xs) ((x :: acc) ++ xs) :=
      (insert_entry_perm x acc).append_right xs
    have h3 : List.Perm ((x :: acc) ++ xs) (acc ++ x :: xs) := List.perm_middle.symm
    exact (h1.trans h2).trans h3

/-- `sort_entries` permutes its input. -/
theorem sort_entries_perm (l : List (Nat × OpListItem × Int)) :
    List.Perm (sort_entries l) l := by
  simpa using sort_entries_perm_aux l []

/-- `insert_entry` preserves descending sortedness by score. -/
theorem insert_entry_sorted {x : Nat × OpListItem × Int}
    {l : List (Nat × OpListItem × Int)}
    (h : List.Pairwise (fun a b => b.2.2 ≤ a.2.2) l) :
    List.Pairwise (fun a b => b.2.2 ≤ a.2.2) (insert_entry x l) := by
  induction l with
  | nil => simp [insert_entry]
  | cons y ys ih =>
    have hdom := (List.pairwise_cons.mp h).1
    have hys := (List.pairwise_cons.mp h).2
    unfold insert_entry
    split
    · rename_i hlt
      refine List.Pairwise.cons ?_ h
      intro z hz
      rcases List.mem_cons.mp hz with rfl | hz2
      · exact le_of_lt hlt
      · exact (hdom z hz2).trans (le_of_lt hlt)
    · rename_i hnlt
      refine List.Pairwise.cons ?_ (ih hys)
      intro z hz
      have hz2 := (insert_entry_perm x ys).mem_iff.mp hz
      rcases List.mem_cons.mp hz2 with rfl | hz3
      · exact le_of_not_lt hnlt
      · exact hdom z hz3

/-- The insertion fold preserves descending sortedness. -/
theorem sort_entries_sorted_aux :
    ∀ (l acc : List (Nat × OpListItem × Int)),
      List.Pairwise (fun a b => b.2.2 ≤ a.2.2) acc →
      List.Pairwise (fun a b => b.2.2 ≤ a.2.2)
        (List.foldl (fun acc x => insert_entry x acc) acc l) := by
  intro l
  induction l with
  | nil => intro acc hacc; simpa using hacc
  | cons x xs ih =>
    intro acc hacc
    exact ih (insert_entry x acc) (insert_entry_sorted hacc)

/-- `sort_entries` sorts by non-increasing score. -/
theorem sort_entries_sorted (l : List (Nat × OpListItem × Int)) :
    List.Pairwise (fun a b => b.2.2 ≤ a.2.2) (sort_entries l) :=
  sort_entries_sorted_aux l [] (List.Pairwise.nil)

/-- Inserting into a descending-sorted list places the new element after
every equal score: the filter at a fixed score gains the element at the
back. -/
theorem insert_entry_filter (s : Int) (x : Nat × OpListItem × Int) :
    ∀ l : List (Nat × OpListItem × Int),
      List.Pairwise (fun a b => b.2.2 ≤ a.2.2) l →
      (insert_entry x l).filter (fun t => t.2.2 == s) =
        (if x.2.2 == s then l.filter (fun t => t.2.2 == s) ++ [x]
         else l.filter (fun t => t.2.2 == s)) := by
  intro l
  induction l with
  | nil =>
    intro _
    by_cases hx : x.2.2 = s <;> simp [insert_entry, List.filter_cons, hx]
  | cons y ys ih =>
    intro h
    have hdom := (List.pairwise_cons.mp h).1
    have hys := (List.pairwise_cons.mp h).2
    unfold insert_entry
    split
    · rename_i hlt
      by_cases hx : x.2.2 = s
      · have hnil : (y :: ys).filter (fun t => t.2.2 == s) = [] := by
          rw [List.filter_eq_nil_iff]
          intro z hz
          have hzle : z.2.2 ≤ y.2.2 := by
            rcases List.mem_cons.mp hz with rfl | hz2
            · exact le_refl _
            · exact hdom z hz2
          have hzlt : z.2.2 < x.2.2 := lt_of_le_of_lt hzle hlt
          simp [hx ▸ hzlt.ne]
        rw [if_pos (by simpa using hx), hnil]
        simp [List.filter_cons, hx, hnil]
      · rw [if_neg (by simpa using hx)]
        simp [List.filter_cons, hx]
    · rename_i hnlt
      by_cases hy : y.2.2 = s
      · by_cases hx : x.2.2 = s <;>
          simp [List.filter_cons, hy, hx, ih hys]
      · by_cases hx : x.2.2 = s <;>
          simp [List.filter_cons, hy, hx, ih hys]

/-- The insertion fold is stable: at every fixed score the filtered
entries keep their orientation, accumulator first, then input order. -/
theorem sort_entries_filter_aux (s : Int) :
    ∀ (l acc : List (Nat × OpListItem × Int)),
      List.Pairwise (fun a b => b.2.2 ≤ a.2.2) acc →
      (List.foldl (fun acc x => insert_entry x acc) acc l).filter (fun t => t.2.2 == s) =
        acc.filter (fun t => t.2.2 == s) ++ l.filter (fun t => t.2.2 == s) := by
  intro l
  induction l with
  | nil => intro acc hacc; simp
  | cons x xs ih =>
    intro acc hacc
    rw [List.foldl_cons, ih (insert_entry x acc) (insert_entry_sorted hacc),
      insert_entry_filter s x acc hacc]
    by_cases hx : x.2.2 = s <;> simp [List.filter_cons, hx]

/-- Stability of `sort_entries`: at every fixed score the sorted list
filters to exactly the input's entries in input (catalog) order. -/
theorem sort_entries_filter (s : Int) (l : List (Nat × OpListItem × Int)) :
    (sort_entries l).filter (fun t => t.2.2 == s) = l.filter (fun t => t.2.2 == s) := by
  simpa using sort_entries_filter_aux s l [] (List.Pairwise.nil)

/-- Every entry surviving the score filter has positive score. -/
theorem matching_entries_pos {fm : String → String → Option Int} {p : String}
    {items : List (Nat × OpListItem)} {t : Nat × OpListItem × Int}
    (h : t ∈ matching_entries fm p items) : 0 < t.2.2 := by
  unfold matching_entries at h
  rcases List.mem_filterMap.mp h with ⟨q, _, he⟩
  dsimp only at he
  split at he
  · rename_i hpos
    cases he
    simpa using hpos
  · cases he

/-- Claim C7: the result list of a searching evaluation contains only
positive-score entries, is sorted by non-increasing score, is stable on
ties (at every score the surviving entries are a sublist of the
positive-score candidates in catalog order), and is never longer than the
configured maximum nor than the number of positive-score candidates; the
emitted rows are exactly these entries' rows when the query carries the
configured marker, and the empty list otherwise. -/
theorem C7_ranked_results (fm : String → String → Option Int) (input : String)
    (st : State) :
    (∀ t ∈ (sort_entries (matching_entries fm (input.drop st.config.pfx.length)
        st.items)).take st.config.max_entries, 0 < t.2.2)
    ∧ List.Pairwise (fun a b => b.2.2 ≤ a.2.2)
        ((sort_entries (matching_entries fm (input.drop st.config.pfx.length)
          st.items)).take st.config.max_entries)
    ∧ ((sort_entries (matching_entries fm (input.drop st.config.pfx.length)
          st.items)).take st.config.max_entries).length ≤ st.config.max_entries
    ∧ ((sort_entries (matching_entries fm (input.drop st.config.pfx.length)
          st.items)).take st.config.max_entries).length
        ≤ (matching_entries fm (input.drop st.config.pfx.length) st.items).length
    ∧ (∀ s : Int,
        List.Sublist
          (((sort_entries (matching_entries fm (input.drop st.config.pfx.length)
            st.items)).take st.config.max_entries).filter (fun t => t.2.2 == s))
          ((matching_entries fm (input.drop st.config.pfx.length)
            st.items).filter (fun t => t.2.2 == s)))
    ∧ (starts_with input st.config.pfx = true →
        (display_matching_items fm input st).1 =
          ((sort_entries (matching_entries fm (input.drop st.config.pfx.length)
            st.items)).take st.config.max_entries).map entry_to_match)
    ∧ (starts_with input st.config.pfx = false →
        (display_matching_items fm input st).1 = []) := by
  refine ⟨?_, ?_, ?_, ?_, ?_, ?_, ?_⟩
  · intro t ht
    have h1 : t ∈ sort_entries (matching_entries fm
        (input.drop st.config.pfx.length) st.items) :=
      (List.take_sublist _ _).mem ht
    exact matching_entries_pos
      ((sort_entries_perm _).mem_iff.mp h1)
  · exact List.Pairwise.sublist (List.take_sublist _ _) (sort_entries_sorted _)
  · exact List.length_take_le _ _
  · calc ((sort_entries _).take st.config.max_entries).length
        ≤ (sort_entries (matching_entries fm (input.drop st.config.pfx.length)
            st.items)).length := (List.take_sublist _ _).length_le
      _ = _ := (sort_entries_perm _).length_eq
  · intro s
    have h1 : List.Sublist
        (((sort_entries (matching_entries fm (input.drop st.config.pfx.length)
          st.items)).take st.config.max_entries).filter (fun t => t.2.2 == s))
        ((sort_entries (matching_entries fm (input.drop st.config.pfx.length)
          st.items)).filter (fun t => t.2.2 == s)) :=
      (List.take_sublist _ _).filter _
    rw [sort_entries_filter] at h1
    exact h1
  · intro hpre
    simp [display_matching_items, hpre]
  · intro hpre
    simp [display_matching_items, hpre]

/-- Witness for C7: the emitted rows at a concrete searching state. -/
theorem C7_witness :
    (display_matching_items fm0 "git" st1).1 =
      ((sort_entries (matching_entries fm0 ("git".drop st1.config.pfx.length)
        st1.items)).take st1.config.max_entries).map entry_to_match :=
  (C7_ranked_results fm0 "git" st1).2.2.2.2.2.1 (by decide)

/-! The fuzzy aggregation (claim C8). -/

/-- Folding `max` commutes with an outer `max`. -/
theorem foldl_max_comm :
    ∀ (l : List Int) (a b : Int), max a (l.foldl max b) = l.foldl max (max a b) := by
  intro l
  induction l with
  | nil => intro a b; rfl
  | cons x xs ih =>
    intro a b
    simp only [List.foldl_cons]
    rw [ih, ← max_assoc]

/-- The candidate list is exactly the positive-score items, in catalog
order, paired with their scores. -/
theorem matching_entries_eq (fm : String → String → Option Int) (p : String)
    (items : List (Nat × OpListItem)) :
    matching_entries fm p items =
      (items.filter (fun q => decide (0 < item_score fm p q.2))).map
        (fun q => (q.1, q.2, item_score fm p q.2)) := by
  induction items with
  | nil => rfl
  | cons a l ih =>
    unfold matching_entries at ih ⊢
    simp only [List.filterMap_cons, List.filter_cons]
    by_cases h : 0 < item_score fm p a.2
    · simp [h, ih]
    · simp [h, ih]

/-- The code's item score is positive exactly when the plain maximum of
title and domain scores is, and equals it whenever positive. -/
theorem item_score_spec_rel (fm : String → String → Option Int) (q : String)
    (e : OpListItem) :
    (0 < item_score fm q e ↔ 0 < spec_item_score fm q e)
    ∧ (0 < item_score fm q e → item_score fm q e = spec_item_score fm q e) := by
  unfold item_score spec_item_score
  cases hds : (e.urls.filterMap OpUrl.href).map (fun d => (fm d q).getD 0) with
  | nil =>
    simp only [hds, List.max?, Option.getD, List.foldl_nil]
    constructor
    · constructor
      · intro h
        rcases lt_max_iff.mp h with h1 | h1
        · exact h1
        · exact absurd h1 (lt_irrefl 0)
      · intro h
        exact lt_max_iff.mpr (Or.inl h)
    · intro h
      have h1 : 0 < (fm e.title q).getD 0 := by
        rcases lt_max_iff.mp h with h1 | h1
        · exact h1
        · exact absurd h1 (lt_irrefl 0)
      exact max_eq_left h1.le
  | cons d rest =>
    have heq : max ((fm e.title q).getD 0) (((d :: rest).max?).getD 0) =
        (d :: rest).foldl max ((fm e.title q).getD 0) := by
      simp only [List.max?, Option.getD, List.foldl_cons]
      exact foldl_max_comm rest ((fm e.title q).getD 0) d
    dsimp only
    rw [heq]
    exact ⟨Iff.rfl, fun _ => rfl⟩

/-- The candidate list is also exactly the items whose plain maximum
score is positive, carrying that maximum: the zero-defaulting in the code
never changes the candidate list. -/
theorem spec_matching_entries_eq (fm : String → String → Option Int) (q : String)
    (items : List (Nat × OpListItem)) :
    matching_entries fm q items =
      (items.filter (fun p => decide (0 < spec_item_score fm q p.2))).map
        (fun p => (p.1, p.2, spec_item_score fm q p.2)) := by
  induction items with
  | nil => rfl
  | cons a l ih =>
    unfold matching_entries at ih ⊢
    simp only [List.filterMap_cons, List.filter_cons]
    by_cases h : 0 < item_score fm q a.2
    · have hs : 0 < spec_item_score fm q a.2 := (item_score_spec_rel fm q a.2).1.mp h
      have he := (item_score_spec_rel fm q a.2).2 h
      simp [h, hs, he, ih]
    · have hs : ¬0 < spec_item_score fm q a.2 := fun hs =>
        h ((item_score_spec_rel fm q a.2).1.mpr hs)
      simp [h, hs, ih]

/-- Claim C8: an item's score is positive exactly when the plain maximum
of its title score and domain scores is, and equals that maximum whenever
it is positive; the candidate list consists exactly of the items whose
maximum score is positive, carrying that maximum (zero or negative scores
are excluded). -/
theorem C8_score_is_max (fm : String → String → Option Int) (q : String)
    (e : OpListItem) :
    (0 < item_score fm q e ↔ 0 < spec_item_score fm q e)
    ∧ (0 < item_score fm q e → item_score fm q e = spec_item_score fm q e)
    ∧ (∀ items : List (Nat × OpListItem),
        matching_entries fm q items =
          (items.filter (fun p => decide (0 < item_score fm q p.2))).map
            (fun p => (p.1, p.2, item_score fm q p.2)))
    ∧ (∀ items : List (Nat × OpListItem),
        matching_entries fm q items =
          (items.filter (fun p => decide (0 < spec_item_score fm q p.2))).map
            (fun p => (p.1, p.2, spec_item_score fm q p.2))) :=
  ⟨(item_score_spec_rel fm q e).1, (item_score_spec_rel fm q e).2,
    matching_entries_eq fm q, spec_matching_entries_eq fm q⟩

/-- Witness for C8 at a concrete matcher and item with positive score. -/
theorem C8_witness :
    item_score fm0 "q" item0 = spec_item_score fm0 "q" item0 :=
  (C8_score_is_max fm0 "q" item0).2.1 (by decide)

/-! The external-command failure policies (claims C4, C5, C6). -/

/-- Claim C4: initialization re-invokes the identical catalog listing
command exactly once when the first attempt exits non-zero, and only
then; `handler` (which performs the detail fetch and the OTP fetch) never
makes more than one invocation, so neither fetch is ever retried. -/
theorem C4_retry_policy (cfg : Config) (o : Nat → Except Error String)
    (dec : String → Option (List OpListItem)) :
    ((∃ c, o 0 = .error (.OpReturnCodeError c)) →
      (init cfg o dec).2 = [listCmd cfg, listCmd cfg])
    ∧ ((∀ c, o 0 ≠ .error (.OpReturnCodeError c)) →
      (init cfg o dec).2 = [listCmd cfg])
    ∧ (∀ (m : Match) (st : State) (o2 : Nat → Except Error String)
        (d2 : String → Option OpGetItem), ((handler m st o2 d2).2).length ≤ 1) := by
  refine ⟨?_, ?_, ?_⟩
  · rintro ⟨c, hc⟩
    simp [init, listing_content, hc]
  · intro hnc
    cases ho : o 0 with
    | ok s => simp [init, listing_content, ho]
    | error e =>
      cases e with
      | OpCommandFailed => simp [init, listing_content, ho]
      | OpReturnCodeError c => exact absurd ho (hnc c)
      | ReadOutputError => simp [init, listing_content, ho]
      | ParsingError => simp [init, listing_content, ho]
  · intro m st o2 d2
    unfold handler
    repeat' split
    all_goals simp

/-- Witness for C4: the failing listing is invoked exactly twice. -/
theorem C4_witness :
    (init Config.default oracleFail dec0).2 =
      [listCmd Config.default, listCmd Config.default] :=
  (C4_retry_policy Config.default oracleFail dec0).1 ⟨3, rfl⟩

/-- Claim C5: when the catalog listing exits non-zero twice in a row, or
the listing content fails to decode, initialization surfaces a terminal
error — no state is produced, in particular never a silently empty
index. -/
theorem C5_terminal_init_failure (cfg : Config) (o : Nat → Except Error String)
    (dec : String → Option (List OpListItem))
    (h : (∃ c e2, o 0 = .error (.OpReturnCodeError c) ∧ o 1 = .error e2)
       ∨ (∃ s, (listing_content cfg o).1 = .ok s ∧ dec s = none)) :
    (∃ e, (init cfg o dec).1 = .error e)
    ∧ ∀ st : State, (init cfg o dec).1 ≠ .ok st := by
  have hmain : ∃ e, (init cfg o dec).1 = .error e := by
    rcases h with ⟨c, e2, h1, h2⟩ | ⟨s, h1, h2⟩
    · exact ⟨e2, by simp [init, listing_content, h1, h2]⟩
    · exact ⟨.ParsingError, by simp [init, h1, h2]⟩
  rcases hmain with ⟨e, he⟩
  refine ⟨⟨e, he⟩, ?_⟩
  intro st hst
  rw [he] at hst
  cases hst

/-- Witness for C5: two non-zero exits in a row leave no state. -/
theorem C5_witness :
    (∃ e, (init Config.default oracleFail dec0).1 = .error e)
    ∧ ∀ st : State, (init Config.default oracleFail dec0).1 ≠ .ok st :=
  C5_terminal_init_failure Config.default oracleFail dec0
    (Or.inl ⟨3, .OpReturnCodeError 3, rfl, rfl⟩)

/-- Claim C6: a failed detail fetch (command error or undecodable detail
record) and a failed OTP fetch each abort the in-progress action with no
result — no copy payload is produced and no successor state exists, so
the selection is never left half-populated; moreover whenever `handler`
does succeed, the selection either is untouched or was populated from one
fully decoded detail record. -/
theorem C6_fetch_error_closes_flow (st : State) (m : Match)
    (o : Nat → Except Error String) (d : String → Option OpGetItem) :
    (∀ (i : String) (e : Error), st.selection = none → resolve_id st m = some i →
      o 0 = .error e → (handler m st o d).1 = .aborted (some e))
    ∧ (∀ (i s : String), st.selection = none → resolve_id st m = some i →
      o 0 = .ok s → d s = none → (handler m st o d).1 = .aborted (some .ParsingError))
    ∧ (∀ (sel : Selection) (e : Error), st.selection = some sel → m.id = some 2 →
      o 0 = .error e → (handler m st o d).1 = .aborted (some e))
    ∧ (∀ (r : HandleResult) (st2 : State), (handler m st o d).1 = .ok r st2 →
      st2.selection = st.selection
      ∨ ∃ (i s : String) (it : OpGetItem), resolve_id st m = some i ∧ o 0 = .ok s
          ∧ d s = some it ∧ st2.selection = some (extract_selection i it)) := by
  refine ⟨?_, ?_, ?_, ?_⟩
  · intro i e h1 h2 h3
    simp [handler, h1, h2, h3]
  · intro i s h1 h2 h3 h4
    simp [handler, h1, h2, h3, h4]
  · intro sel e h1 h2 h3
    simp [handler, h1, h2, h3]
  · intro r st2 h
    cases hsel : st.selection with
    | none =>
      cases hres : resolve_id st m with
      | none => simp [handler, hsel, hres] at h
      | some i =>
        cases ho : o 0 with
        | error e => simp [handler, hsel, hres, ho] at h
        | ok s2 =>
          cases hd : d s2 with
          | none => simp [handler, hsel, hres, ho, hd] at h
          | some it =>
            simp [handler, hsel, hres, ho, hd] at h
            right
            exact ⟨i, s2, it, rfl, rfl, hd, by rw [← h.2]⟩
    | some sel =>
      left
      simp only [handler, hsel] at h
      repeat' split at h
      all_goals simp at h
      all_goals (rw [← h.2]; exact hsel)

/-- Witness for C6: a non-zero exit of the detail fetch aborts the action
with no result. -/
theorem C6_witness :
    (handler m0 st1 oracleFail dget0).1 = .aborted (some (.OpReturnCodeError 3)) :=
  (C6_fetch_error_closes_flow st1 m0 oracleFail dget0).1 "XID"
    (.OpReturnCodeError 3) rfl (by decide) rfl

end AnyrunOp
